import Mathlib

/-!
Verification of the Conversation Analytics Engine
(`app/services/delays_service.py`, `app/services/analysis_service.py`).

Strings are modelled as Lean `String`s, but every Python string operation used
by the code (`.lower()`, `.strip()`, `.capitalize()`, substring containment,
lexicographic comparison) is re-implemented structurally over the character
list so that all definitions are executable by the kernel.  Timestamps and
latencies are modelled as rationals (`ℚ`); `round(x, 2)` is modelled exactly,
including Python's banker's rounding.
-/

/-- Python whitespace characters stripped by `str.strip()` (ASCII subset). -/
def pySpace (c : Char) : Bool :=
  c == ' ' || c == '\t' || c == '\n' || c == '\r' || c == '\x0b' || c == '\x0c'

/-- Python `str.lower()` (ASCII case folding, which is all the code relies on). -/
def lowerStr (s : String) : String := ⟨s.data.map Char.toLower⟩

/-- Python `str.strip()`. -/
def trimStr (s : String) : String :=
  ⟨((s.data.dropWhile pySpace).reverse.dropWhile pySpace).reverse⟩

/-- Python `str.capitalize()`: first character upper-cased, the rest lower-cased. -/
def capStr (s : String) : String :=
  match s.data with
  | [] => ⟨[]⟩
  | c :: rest => ⟨Char.toUpper c :: rest.map Char.toLower⟩

/-- Does `hay` start with `pat` (on character lists)? -/
def startsWithSeg : List Char → List Char → Bool
  | [], _ => true
  | _ :: _, [] => false
  | p :: ps, h :: hs => p == h && startsWithSeg ps hs

/-- Auxiliary substring search over character lists. -/
def hasSegAux (pat : List Char) : List Char → Bool
  | [] => pat.isEmpty
  | c :: rest => startsWithSeg pat (c :: rest) || hasSegAux pat rest

/-- Python `pat in hay` substring containment. -/
def hasSub (hay pat : String) : Bool := hasSegAux pat.data hay.data

/-- Case-insensitive substring containment (`pat.lower() in hay.lower()`). -/
def containsCI (hay pat : String) : Bool := hasSub (lowerStr hay) (lowerStr pat)

/-- One raw message event: a row of the per-message export consumed by the engine. -/
structure Row where
  conversationId : String
  sentTime : ℚ
  sentBy : String
  messageType : String
  skill : String
  text : String
  messageId : String
  agentName : Option String
  customerName : String
deriving DecidableEq

/-- Python `round(q, 2)`: round to two decimals, ties to even (banker's rounding). -/
def round2 (q : ℚ) : ℚ :=
  let s := q * 100
  let f := ⌊s⌋
  let r := s - (f : ℚ)
  let n : ℤ := if r < 1/2 then f else if 1/2 < r then f + 1 else (if f % 2 = 0 then f else f + 1)
  (n : ℚ) / 100

/-- Mean of a list of rationals (`Series.mean`). -/
def meanQ (l : List ℚ) : ℚ := l.sum / l.length

/-- Median of a list of rationals (`Series.median`): middle element of the sorted
list, or the average of the two middle elements for even length. -/
def medianQ (l : List ℚ) : ℚ :=
  let s := l.insertionSort (· ≤ ·)
  if l.length % 2 = 1 then s.getD (l.length / 2) 0
  else (s.getD (l.length / 2 - 1) 0 + s.getD (l.length / 2) 0) / 2

/-- Maximum of a list of rationals (`Series.max`, list known non-empty at call sites). -/
def maxQ : List ℚ → ℚ
  | [] => 0
  | a :: l => l.foldl max a

/-- Minimum of a list of rationals (`Series.min`). -/
def minQ : List ℚ → ℚ
  | [] => 0
  | a :: l => l.foldl min a

/-- `f"{n:02d}"`: zero-pad to width 2 (negative numbers keep their sign). -/
def pad2 (n : ℤ) : String := if 0 ≤ n ∧ n < 10 then "0" ++ toString n else toString n

/-- The `over_4_min` count in `format_response_time_with_count`
(`delays_service.py:44`): strictly greater than 240 seconds. -/
def count_over_4min (l : List ℚ) : ℕ := (l.filter (fun t => decide (240 < t))).length

/-- `DelaysAnalysisService.format_response_time_with_count`
(`delays_service.py:23-49`): average of the *full* list as `MM:SS`, plus the
count of entries strictly over 240 s. -/
def format_response_time_with_count (l : List ℚ) : String :=
  if l.isEmpty then "00:00 (0 msg > 4 Min)"
  else
    let avg := meanQ l
    let minutes : ℤ := ⌊avg / 60⌋
    let seconds : ℤ := ⌊avg - 60 * ⌊avg / 60⌋⌋
    pad2 minutes ++ ":" ++ pad2 seconds ++ " (" ++ toString (count_over_4min l) ++ " msg > 4 Min)"

/-- The summary block `calculate_summary_stats` builds for one latency table
(`delays_service.py:813-845`; the subsequent-response branch at 855-887 is
character-for-character the same computation). -/
structure SummaryStats where
  count : ℕ
  countUnder4min : ℕ
  count4plus : ℕ
  avgResponseTime : ℚ
  avgResponseTimeFormatted : String
  medianResponseTime : ℚ
  maxResponseTime : ℚ
  minResponseTime : ℚ
deriving DecidableEq

/-- `DelaysAnalysisService.calculate_summary_stats`, non-empty-table branch
(`delays_service.py:813-845`): mean/median/min over the `< 240` subset
(0.0 fallbacks when that subset is empty), max and the formatted string over
the full list, `count_4plus` counting `>= 240`. -/
def calculate_summary_stats (responseTimes : List ℚ) : SummaryStats :=
  let under := responseTimes.filter (fun t => decide (t < 240))
  let avgTime := if under.isEmpty then 0 else meanQ under
  let medianTime := if under.isEmpty then 0 else medianQ under
  let minTime := if under.isEmpty then 0 else minQ under
  { count := responseTimes.length
    countUnder4min := under.length
    count4plus := (responseTimes.filter (fun t => decide (240 ≤ t))).length
    avgResponseTime := round2 avgTime
    avgResponseTimeFormatted := format_response_time_with_count responseTimes
    medianResponseTime := round2 medianTime
    maxResponseTime := round2 (maxQ responseTimes)
    minResponseTime := round2 minTime }

lemma under_cons_of_ge {x : ℚ} (l : List ℚ) (h : (240 : ℚ) ≤ x) :
    (x :: l).filter (fun t => decide (t < 240)) = l.filter (fun t => decide (t < 240)) := by
  simp [List.filter_cons, not_lt.mpr h]

example : round2 ((1:ℚ)/8) = 12/100 := by norm_num [round2]
example : format_response_time_with_count [] = "00:00 (0 msg > 4 Min)" := rfl

/-- Claim C10: a latency of exactly 240 s is excluded from the `< 240` partition
feeding mean/median/min, is counted in `count_4plus` (`>= 240`), but is not
counted by the strictly-greater `"> 4 Min"` overflow count of the formatted
string; and the formatted string for an empty list is exactly
"00:00 (0 msg > 4 Min)". -/
theorem C10_theorem (l : List ℚ) :
    ((240 : ℚ) :: l).filter (fun t => decide (t < 240)) = l.filter (fun t => decide (t < 240))
    ∧ (calculate_summary_stats ((240 : ℚ) :: l)).count4plus
        = (calculate_summary_stats l).count4plus + 1
    ∧ (calculate_summary_stats ((240 : ℚ) :: l)).avgResponseTime
        = (calculate_summary_stats l).avgResponseTime
    ∧ (calculate_summary_stats ((240 : ℚ) :: l)).medianResponseTime
        = (calculate_summary_stats l).medianResponseTime
    ∧ (calculate_summary_stats ((240 : ℚ) :: l)).minResponseTime
        = (calculate_summary_stats l).minResponseTime
    ∧ count_over_4min ((240 : ℚ) :: l) = count_over_4min l
    ∧ format_response_time_with_count [] = "00:00 (0 msg > 4 Min)" := by
  have h240 := under_cons_of_ge l (le_refl (240 : ℚ))
  refine ⟨h240, ?_, ?_, ?_, ?_, ?_, rfl⟩
  · simp [calculate_summary_stats, List.filter_cons]
  · simp [calculate_summary_stats, h240]
  · simp [calculate_summary_stats, h240]
  · simp [calculate_summary_stats, h240]
  · simp [count_over_4min, List.filter_cons]

/-- Claim C6: for a non-empty latency table the summary partitions at 240 s:
mean/median/min are computed over (and depend only on) the latencies strictly
below 240 s, while max and the "MM:SS (n msg > 4 Min)" string are computed
over the full unfiltered list. -/
theorem C6_theorem (l : List ℚ) (x : ℚ) (hl : l ≠ []) (hx : (240 : ℚ) ≤ x) :
    ((calculate_summary_stats (x :: l)).avgResponseTime
        = (calculate_summary_stats l).avgResponseTime
      ∧ (calculate_summary_stats (x :: l)).medianResponseTime
        = (calculate_summary_stats l).medianResponseTime
      ∧ (calculate_summary_stats (x :: l)).minResponseTime
        = (calculate_summary_stats l).minResponseTime)
    ∧ (l.filter (fun t => decide (t < 240)) ≠ [] →
        (calculate_summary_stats l).avgResponseTime
            = round2 (meanQ (l.filter (fun t => decide (t < 240))))
        ∧ (calculate_summary_stats l).medianResponseTime
            = round2 (medianQ (l.filter (fun t => decide (t < 240))))
        ∧ (calculate_summary_stats l).minResponseTime
            = round2 (minQ (l.filter (fun t => decide (t < 240)))))
    ∧ (calculate_summary_stats l).maxResponseTime = round2 (maxQ l)
    ∧ (calculate_summary_stats (x :: l)).maxResponseTime = round2 (maxQ (x :: l))
    ∧ (calculate_summary_stats l).avgResponseTimeFormatted = format_response_time_with_count l
    ∧ (calculate_summary_stats (x :: l)).avgResponseTimeFormatted
        = format_response_time_with_count (x :: l) := by
  have h := under_cons_of_ge l hx
  refine ⟨⟨?_, ?_, ?_⟩, fun hne => ⟨?_, ?_, ?_⟩, rfl, rfl, rfl, rfl⟩
  · simp [calculate_summary_stats, h]
  · simp [calculate_summary_stats, h]
  · simp [calculate_summary_stats, h]
  · simp [calculate_summary_stats, hne]
  · simp [calculate_summary_stats, hne]
  · simp [calculate_summary_stats, hne]

/-- Witness for C6 at `l = [10, 300]`, `x = 240`. -/
theorem C6_witness :
    (([10, 300] : List ℚ) ≠ [] ∧ (240 : ℚ) ≤ 240)
    ∧ ((calculate_summary_stats ((240 : ℚ) :: [10, 300])).avgResponseTime
        = (calculate_summary_stats [10, 300]).avgResponseTime
      ∧ (calculate_summary_stats [10, 300]).avgResponseTime = 10) := by
  have h := C6_theorem [10, 300] 240 (by simp) (by norm_num)
  refine ⟨⟨by simp, by norm_num⟩, h.1.1, ?_⟩
  have h2 := (h.2.1 (by norm_num)).1
  rw [h2]
  norm_num [meanQ, round2]

/-! ## Record Normalizer (`preprocess_data` in both services)

`analysis_service.py:24-42` and `delays_service.py:476-518` both sort by
`(Conversation ID, Message Sent Time)` (pandas multi-key `sort_values`, a
stable lexsort) and then `drop_duplicates(subset=..., keep='first')`, which
keeps the globally first occurrence of each key. -/

/-- Lexicographic strict comparison of character lists (pandas compares the
`Conversation ID` strings by code point). -/
def charListLt : List Char → List Char → Bool
  | [], [] => false
  | [], _ :: _ => true
  | _ :: _, [] => false
  | a :: as, b :: bs => if a = b then charListLt as bs else decide (a < b)

/-- The sort/dedup key `(Conversation ID, Message Sent Time)`. -/
def rowKey (r : Row) : String × ℚ := (r.conversationId, r.sentTime)

/-- The sort order of `sort_values(by=['Conversation ID', 'Message Sent Time'])`. -/
def rowLe (a b : Row) : Prop :=
  charListLt a.conversationId.data b.conversationId.data = true
  ∨ (a.conversationId = b.conversationId ∧ a.sentTime ≤ b.sentTime)

instance : DecidableRel rowLe := fun a b => by unfold rowLe; infer_instance

lemma charListLt_irrefl : ∀ as, charListLt as as = false
  | [] => rfl
  | a :: as => by simp [charListLt, charListLt_irrefl as]

lemma charListLt_trans : ∀ {as bs cs}, charListLt as bs = true → charListLt bs cs = true →
    charListLt as cs = true
  | [], _ :: _, _ :: _, _, _ => rfl
  | a :: as, b :: bs, c :: cs, h₁, h₂ => by
    simp only [charListLt] at h₁ h₂ ⊢
    by_cases hab : a = b <;> by_cases hbc : b = c
    · subst hab; subst hbc
      simp_all
      exact charListLt_trans h₁ h₂
    · subst hab; simp_all
    · subst hbc; simp_all
    · simp only [hab, if_neg, hbc] at h₁ h₂
      by_cases hac : a = c
      · subst hac
        exact absurd (lt_trans (of_decide_eq_true h₁) (of_decide_eq_true h₂)) (lt_irrefl a)
      · simp [hac]
        exact lt_trans (of_decide_eq_true h₁) (of_decide_eq_true h₂)

lemma charListLt_total : ∀ as bs, charListLt as bs = true ∨ as = bs ∨ charListLt bs as = true
  | [], [] => Or.inr (Or.inl rfl)
  | [], _ :: _ => Or.inl rfl
  | _ :: _, [] => Or.inr (Or.inr rfl)
  | a :: as, b :: bs => by
    by_cases hab : a = b
    · subst hab
      rcases charListLt_total as bs with h | h | h
      · exact Or.inl (by simp [charListLt, h])
      · exact Or.inr (Or.inl (by rw [h]))
      · exact Or.inr (Or.inr (by simp [charListLt, h]))
    · rcases lt_or_gt_of_ne (show a ≠ b from hab) with h | h
      · exact Or.inl (by simp [charListLt, hab, h])
      · exact Or.inr (Or.inr (by simp [charListLt, Ne.symm hab, h]))

instance : IsTotal Row rowLe := by
  constructor
  intro a b
  rcases charListLt_total a.conversationId.data b.conversationId.data with h | h | h
  · exact Or.inl (Or.inl h)
  · have hc : a.conversationId = b.conversationId := congrArg String.mk h
    rcases le_total a.sentTime b.sentTime with ht | ht
    · exact Or.inl (Or.inr ⟨hc, ht⟩)
    · exact Or.inr (Or.inr ⟨hc.symm, ht⟩)
  · exact Or.inr (Or.inl h)

instance : IsTrans Row rowLe := by
  constructor
  rintro a b c (h₁ | ⟨e₁, t₁⟩) (h₂ | ⟨e₂, t₂⟩)
  · exact Or.inl (charListLt_trans h₁ h₂)
  · exact Or.inl (e₂ ▸ h₁)
  · exact Or.inl (e₁ ▸ h₂)
  · exact Or.inr ⟨e₁.trans e₂, t₁.trans t₂⟩

/-- If `x` does not sort (weakly) before `y` then their keys differ. -/
lemma rowKey_ne_of_not_rowLe {x y : Row} (h : ¬ rowLe x y) : rowKey y ≠ rowKey x := by
  intro he
  have hc : y.conversationId = x.conversationId := congrArg Prod.fst he
  have ht : y.sentTime = x.sentTime := congrArg Prod.snd he
  exact h (Or.inr ⟨hc.symm, le_of_eq ht.symm⟩)

/-- `drop_duplicates(subset=['Conversation ID','Message Sent Time'], keep='first')`:
walk the rows, keeping a row only if its key has not been seen yet. -/
def dropDuplicatesAux : List Row → List (String × ℚ) → List Row
  | [], _ => []
  | x :: xs, seen =>
    if rowKey x ∈ seen then dropDuplicatesAux xs seen
    else x :: dropDuplicatesAux xs (rowKey x :: seen)

/-- `df.drop_duplicates(subset=['Conversation ID','Message Sent Time'], keep='first')`. -/
def drop_duplicates (l : List Row) : List Row := dropDuplicatesAux l []

/-- The Record Normalizer `preprocess_data` (`analysis_service.py:24-42`,
`delays_service.py:476-518`): stable sort by `(Conversation ID, Message Sent
Time)`, then drop duplicate keys keeping the first occurrence. -/
def preprocess_data (df : List Row) : List Row := drop_duplicates (df.insertionSort rowLe)

lemma filter_orderedInsert_key_eq (k : String × ℚ) (x : Row) (hk : rowKey x = k) :
    ∀ l : List Row, (List.orderedInsert rowLe x l).filter (fun r => decide (rowKey r = k))
      = x :: l.filter (fun r => decide (rowKey r = k))
  | [] => by simp [List.orderedInsert, hk]
  | y :: l => by
    by_cases h : rowLe x y
    · simp [List.orderedInsert, h, List.filter_cons, hk]
    · have hy : rowKey y ≠ k := hk ▸ rowKey_ne_of_not_rowLe h
      simp only [List.orderedInsert, if_neg h, List.filter_cons,
        filter_orderedInsert_key_eq k x hk l]
      simp [hy]

lemma filter_orderedInsert_key_ne (k : String × ℚ) (x : Row) (hk : rowKey x ≠ k) :
    ∀ l : List Row, (List.orderedInsert rowLe x l).filter (fun r => decide (rowKey r = k))
      = l.filter (fun r => decide (rowKey r = k))
  | [] => by simp [List.orderedInsert, hk]
  | y :: l => by
    by_cases h : rowLe x y
    · simp [List.orderedInsert, h, List.filter_cons, hk]
    · simp only [List.orderedInsert, if_neg h, List.filter_cons,
        filter_orderedInsert_key_ne k x hk l]

lemma filter_insertionSort_key (k : String × ℚ) : ∀ l : List Row,
    (List.insertionSort rowLe l).filter (fun r => decide (rowKey r = k))
      = l.filter (fun r => decide (rowKey r = k))
  | [] => rfl
  | x :: l => by
    by_cases hk : rowKey x = k
    · rw [List.insertionSort, filter_orderedInsert_key_eq k x hk _,
        filter_insertionSort_key k l]
      simp [List.filter_cons, hk]
    · rw [List.insertionSort, filter_orderedInsert_key_ne k x hk _,
        filter_insertionSort_key k l]
      simp [List.filter_cons, hk]

lemma filter_dropDuplicatesAux (k : String × ℚ) : ∀ (l : List Row) (seen : List (String × ℚ)),
    (dropDuplicatesAux l seen).filter (fun r => decide (rowKey r = k))
      = if k ∈ seen then [] else (l.filter (fun r => decide (rowKey r = k))).take 1
  | [], seen => by simp [dropDuplicatesAux]
  | x :: l, seen => by
    by_cases hx : rowKey x ∈ seen
    · rw [dropDuplicatesAux, if_pos hx, filter_dropDuplicatesAux k l seen]
      by_cases hk : k ∈ seen
      · simp [hk]
      · have hne : rowKey x ≠ k := fun he => hk (he ▸ hx)
        simp [hk, List.filter_cons, hne]
    · rw [dropDuplicatesAux, if_neg hx]
      have hrec := filter_dropDuplicatesAux k l (rowKey x :: seen)
      by_cases hxk : rowKey x = k
      · have hkseen : k ∉ seen := fun hm => hx (hxk ▸ hm)
        rw [if_pos (by rw [hxk]; exact List.mem_cons_self _ _)] at hrec
        rw [List.filter_cons_of_pos (by simp [hxk]), hrec, if_neg hkseen,
          List.filter_cons_of_pos (by simp [hxk])]
        simp
      · have hne : k ≠ rowKey x := fun h => hxk h.symm
        rw [List.filter_cons_of_neg (by simp [hxk])]
        by_cases hks : k ∈ seen
        · rw [if_pos (List.mem_cons_of_mem _ hks)] at hrec
          rw [hrec, if_pos hks]
        · rw [if_neg (by simp [hne, hks])] at hrec
          rw [hrec, if_neg hks, List.filter_cons_of_neg (by simp [hxk])]

lemma mem_dropDuplicatesAux_not_seen : ∀ (l : List Row) (seen : List (String × ℚ)) (y : Row),
    y ∈ dropDuplicatesAux l seen → rowKey y ∉ seen
  | [], _, y, h => absurd h (List.not_mem_nil y)
  | x :: l, seen, y, h => by
    by_cases hx : rowKey x ∈ seen
    · rw [dropDuplicatesAux, if_pos hx] at h
      exact mem_dropDuplicatesAux_not_seen l seen y h
    · rw [dropDuplicatesAux, if_neg hx] at h
      rcases List.mem_cons.mp h with he | hm
      · subst he; exact hx
      · have hy := mem_dropDuplicatesAux_not_seen l (rowKey x :: seen) y hm
        exact fun hs => hy (List.mem_cons_of_mem _ hs)

lemma pairwise_dropDuplicatesAux : ∀ (l : List Row) (seen : List (String × ℚ)),
    (dropDuplicatesAux l seen).Pairwise (fun a b => rowKey a ≠ rowKey b)
  | [], _ => List.Pairwise.nil
  | x :: l, seen => by
    by_cases hx : rowKey x ∈ seen
    · rw [dropDuplicatesAux, if_pos hx]; exact pairwise_dropDuplicatesAux l seen
    · rw [dropDuplicatesAux, if_neg hx]
      refine List.Pairwise.cons ?_ (pairwise_dropDuplicatesAux l _)
      intro y hy he
      have hns := mem_dropDuplicatesAux_not_seen l (rowKey x :: seen) y hy
      exact hns (by rw [← he]; exact List.mem_cons_self _ _)

lemma dropDuplicatesAux_eq_self : ∀ (l : List Row) (seen : List (String × ℚ)),
    l.Pairwise (fun a b => rowKey a ≠ rowKey b) → (∀ x ∈ l, rowKey x ∉ seen) →
    dropDuplicatesAux l seen = l
  | [], _, _, _ => rfl
  | x :: l, seen, hp, hs => by
    rw [dropDuplicatesAux, if_neg (hs x (List.mem_cons_self _ _))]
    congr 1
    refine dropDuplicatesAux_eq_self l _ (List.pairwise_cons.mp hp).2 ?_
    intro y hy hmem
    rcases List.mem_cons.mp hmem with he | hm
    · exact (List.pairwise_cons.mp hp).1 y hy he.symm
    · exact hs y (List.mem_cons_of_mem _ hy) hm

/-- Claim C7: the Record Normalizer is idempotent on already-normalized input
(sorted by `(conversation_id, sent_time)` with duplicate keys removed), its
output never contains two rows with the same `(conversation_id, sent_time)`
key, and for every key the retained row is the first-seen row of the input
(pandas' multi-key sort is a stable lexsort, `keep='first'`). -/
theorem C7_theorem (rows : List Row) :
    (List.Sorted rowLe rows → rows.Pairwise (fun a b => rowKey a ≠ rowKey b) →
      preprocess_data rows = rows)
    ∧ (preprocess_data rows).Pairwise (fun a b => rowKey a ≠ rowKey b)
    ∧ ∀ k : String × ℚ, (preprocess_data rows).filter (fun r => decide (rowKey r = k))
        = (rows.filter (fun r => decide (rowKey r = k))).take 1 := by
  refine ⟨fun hs hp => ?_, pairwise_dropDuplicatesAux _ [], fun k => ?_⟩
  · unfold preprocess_data drop_duplicates
    rw [hs.insertionSort_eq]
    exact dropDuplicatesAux_eq_self rows [] hp (fun x _ => List.not_mem_nil _)
  · unfold preprocess_data drop_duplicates
    rw [filter_dropDuplicatesAux k _ [], if_neg (List.not_mem_nil k),
      filter_insertionSort_key k rows]

/-- Sample rows for the Normalizer witness. -/
def rwA : Row := ⟨"a", 1, "consumer", "Normal Message", "sk", "hi", "m1", none, "Cust"⟩

/-- Second sample row for the Normalizer witness. -/
def rwB : Row := ⟨"b", 1, "bot", "Normal Message", "sk", "yo", "m2", none, "Cust"⟩

/-- Witness for C7 on the already-normalized two-row table `[rwA, rwB]`. -/
theorem C7_witness :
    (List.Sorted rowLe [rwA, rwB] ∧ List.Pairwise (fun a b => rowKey a ≠ rowKey b) [rwA, rwB])
    ∧ preprocess_data [rwA, rwB] = [rwA, rwB] := by
  have hs : List.Sorted rowLe [rwA, rwB] := by
    refine List.sorted_cons.mpr ⟨?_, List.sorted_singleton _⟩
    intro b hb
    rw [List.mem_singleton] at hb
    subst hb
    exact Or.inl (by decide)
  have hp : List.Pairwise (fun a b => rowKey a ≠ rowKey b) [rwA, rwB] := by
    refine List.Pairwise.cons ?_ (List.pairwise_singleton _ _)
    intro b hb
    rw [List.mem_singleton] at hb
    subst hb
    exact fun he => absurd (congrArg (fun p : String × ℚ => p.1.data) he) (by decide)
  exact ⟨⟨hs, hp⟩, (C7_theorem [rwA, rwB]).1 hs hp⟩

/-! ## Response-Latency State Machine
(`calculate_first_response_times`, `delays_service.py:325-393`, and
`calculate_subsequent_response_times`, `delays_service.py:395-474`).

Both walk each conversation in row order with an anchor
(`first_consumer_message_time`) and a `first_response_recorded` flag.  The
Python local `sender_name` is assigned only when a qualifying response is
processed past the negative-latency logging; that logging itself reads
`sender_name`, so on the first negative latency of a call the interpreter
raises `UnboundLocalError`.  We model the whole calculation in
`Except String` with the still-unassigned variable as an `Option String`
threaded across groups (it is a function-level local in Python). -/

/-- `str(x).strip().lower()` as applied to `Sent By` / `Message Type` / `Skill`. -/
def pyNorm (s : String) : String := lowerStr (trimStr s)

/-- A row of either response-time table
(`response_times.append({...})`, `delays_service.py:374-381` / 451-458). -/
structure RTRecord where
  conversationId : String
  sender : String
  responseSecs : ℚ
  messageId : String
  skill : String
  sentTime : ℚ
deriving DecidableEq

/-- The row mask applied to each group (`delays_service.py:333-336` / 403-406):
normal messages and transfers, plus private messages sent by the system
(plain `.str.lower()`, no strip). -/
def keepForScan (r : Row) : Bool :=
  (lowerStr r.messageType == "normal message" || lowerStr r.messageType == "transfer")
  || (lowerStr r.messageType == "private message" && lowerStr r.sentBy == "system")

/-- `sender_name` construction (`delays_service.py:366-371` / 442-447):
`"BOT_<skill>"` for bot, the `Agent Name ` cell for agent (pandas `NaN`
stringifies to `"nan"`), `"System"` otherwise. -/
def mkSenderLabel (r : Row) : String :=
  if pyNorm r.sentBy = "bot" then "BOT_" ++ pyNorm r.skill
  else if pyNorm r.sentBy = "agent" then r.agentName.getD "nan"
  else "System"

/-- `str(sender_name).lower().find("bot") != -1` (`delays_service.py:373` / 450). -/
def containsBot (s : String) : Bool := hasSub (lowerStr s) "bot"

/-- Per-conversation scan of `calculate_first_response_times`
(`delays_service.py:339-383`): anchor rules in the `elif` chain order, then the
qualifying-response branch, which errors on a negative latency while
`sender_name` is still unassigned, emits (and breaks) only when the label
contains `"bot"`, and otherwise keeps scanning with `sender_name` updated. -/
def scanFirst (cid : String) :
    List Row → Option ℚ → Bool → Option String →
    Except String (List RTRecord × Option String)
  | [], _, _, sn => .ok ([], sn)
  | r :: rest, anchor, recorded, sn =>
    if pyNorm r.sentBy = "consumer" ∧ anchor = none then
      scanFirst cid rest (some r.sentTime) recorded sn
    else if pyNorm r.messageType = "transfer" ∧ anchor ≠ none then
      scanFirst cid rest (some r.sentTime) recorded sn
    else if pyNorm r.sentBy = "system" ∧ pyNorm r.messageType = "private message" ∧ anchor ≠ none then
      scanFirst cid rest (some r.sentTime) recorded sn
    else if (pyNorm r.sentBy = "bot" ∨ pyNorm r.sentBy = "agent" ∨ pyNorm r.sentBy = "system")
        ∧ anchor ≠ none ∧ recorded = false then
      if round2 (r.sentTime - anchor.getD 0) < 0 ∧ sn = none then
        .error "UnboundLocalError: sender_name referenced before assignment"
      else if containsBot (mkSenderLabel r) then
        .ok ([⟨cid, mkSenderLabel r, round2 (r.sentTime - anchor.getD 0), r.messageId,
              pyNorm r.skill, r.sentTime⟩], some (mkSenderLabel r))
      else
        scanFirst cid rest anchor recorded (some (mkSenderLabel r))
    else
      scanFirst cid rest anchor recorded sn

/-- Per-conversation scan of `calculate_subsequent_response_times`
(`delays_service.py:402-460`): same anchor rules; the first qualifying
response is consumed silently, setting the flag *and clearing the anchor*
(`first_consumer_message_time = None`, line 429); later qualifying responses
compute the latency, error on a negative latency while `sender_name` is
unassigned, emit only for `"bot"` labels (clearing the anchor), and leave the
anchor in place otherwise. -/
def scanSubsequent (cid : String) :
    List Row → Option ℚ → Bool → Option String →
    Except String (List RTRecord × Option String)
  | [], _, _, sn => .ok ([], sn)
  | r :: rest, anchor, recorded, sn =>
    if pyNorm r.sentBy = "consumer" ∧ anchor = none then
      scanSubsequent cid rest (some r.sentTime) recorded sn
    else if pyNorm r.messageType = "transfer" ∧ anchor ≠ none then
      scanSubsequent cid rest (some r.sentTime) recorded sn
    else if pyNorm r.sentBy = "system" ∧ pyNorm r.messageType = "private message" ∧ anchor ≠ none then
      scanSubsequent cid rest (some r.sentTime) recorded sn
    else if (pyNorm r.sentBy = "bot" ∨ pyNorm r.sentBy = "agent" ∨ pyNorm r.sentBy = "system")
        ∧ anchor ≠ none then
      if recorded = false then
        scanSubsequent cid rest none true sn
      else if round2 (r.sentTime - anchor.getD 0) < 0 ∧ sn = none then
        .error "UnboundLocalError: sender_name referenced before assignment"
      else if containsBot (mkSenderLabel r) then
        match scanSubsequent cid rest none recorded (some (mkSenderLabel r)) with
        | .error e => .error e
        | .ok (recs, sn') =>
          .ok (⟨cid, mkSenderLabel r, round2 (r.sentTime - anchor.getD 0), r.messageId,
                pyNorm r.skill, r.sentTime⟩ :: recs, sn')
      else
        scanSubsequent cid rest anchor recorded (some (mkSenderLabel r))
    else
      scanSubsequent cid rest anchor recorded sn

/-- The distinct `Conversation ID`s of a table in first-appearance order
(`df.groupby("Conversation ID")` group keys; the group *order* plays no role
in any property below). -/
def uniqueCids : List Row → List String
  | [] => []
  | r :: rest => r.conversationId :: (uniqueCids rest).filter (fun c => decide (c ≠ r.conversationId))

/-- The rows of one conversation, in table order (`groupby` preserves it). -/
def groupRows (df : List Row) (c : String) : List Row :=
  df.filter (fun r => r.conversationId == c)

/-- Run a per-conversation scanner over every group, threading the
function-level `sender_name` local through the groups. -/
def scanGroups
    (scan : String → List Row → Option ℚ → Bool → Option String →
      Except String (List RTRecord × Option String))
    (df : List Row) :
    List String → Option String → Except String (List RTRecord)
  | [], _ => .ok []
  | c :: cs, sn =>
    match scan c ((groupRows df c).filter keepForScan) none false sn with
    | .error e => .error e
    | .ok (recs, sn') =>
      match scanGroups scan df cs sn' with
      | .error e => .error e
      | .ok recs' => .ok (recs ++ recs')

/-- The keyword post-filter (`delays_service.py:386-389` / 465-468):
keep records whose `Sender` contains any keyword, case-insensitively. -/
def keywordFilter (keywords : List String) (recs : List RTRecord) : List RTRecord :=
  if keywords.isEmpty then recs
  else recs.filter (fun r => keywords.any (fun k => containsCI r.sender k))

/-- `sort_values(by='Response Time (secs)', ascending=False)`. -/
def sortByLatencyDesc (recs : List RTRecord) : List RTRecord :=
  recs.insertionSort (fun a b => b.responseSecs ≤ a.responseSecs)

/-- `DelaysAnalysisService.calculate_first_response_times`
(`delays_service.py:325-393`). -/
def calculate_first_response_times (df : List Row) (keywords : List String) :
    Except String (List RTRecord) :=
  match scanGroups scanFirst df (uniqueCids df) none with
  | .error e => .error e
  | .ok recs => .ok (sortByLatencyDesc (keywordFilter keywords recs))

/-- `DelaysAnalysisService.calculate_subsequent_response_times`
(`delays_service.py:395-474`). -/
def calculate_subsequent_response_times (df : List Row) (keywords : List String) :
    Except String (List RTRecord) :=
  match scanGroups scanSubsequent df (uniqueCids df) none with
  | .error e => .error e
  | .ok recs => .ok (sortByLatencyDesc (keywordFilter keywords recs))

/-- Input showing the first-response crash: a single conversation whose first
qualifying response has a negative latency (rows out of time order, as the
unsorted tables this public method accepts can be). -/
def exC4first : List Row :=
  [⟨"c1", 10, "Consumer", "Normal Message", "sk", "hi", "m1", none, "Cust"⟩,
   ⟨"c1", 5, "Bot", "Normal Message", "sk", "yo", "m2", none, "Cust"⟩]

/-- Input showing the subsequent-response crash: the first response is consumed
silently, then the next response has a negative latency while `sender_name` is
still unassigned. -/
def exC4sub : List Row :=
  [⟨"c1", 0, "Consumer", "Normal Message", "sk", "hi", "m1", none, "Cust"⟩,
   ⟨"c1", 3, "Bot", "Normal Message", "sk", "yo", "m2", none, "Cust"⟩,
   ⟨"c1", 20, "Consumer", "Normal Message", "sk", "again", "m3", none, "Cust"⟩,
   ⟨"c1", 15, "Bot", "Normal Message", "sk", "late", "m4", none, "Cust"⟩]

/-- Claim C4 (code bug): on a first negative latency both calculations crash
with `UnboundLocalError` instead of completing normally — the negative-latency
logging (`delays_service.py:362` and 438) reads `sender_name` before that
variable is ever assigned. -/
theorem C4_theorem :
    calculate_first_response_times exC4first []
      = .error "UnboundLocalError: sender_name referenced before assignment"
    ∧ calculate_subsequent_response_times exC4sub []
      = .error "UnboundLocalError: sender_name referenced before assignment" := by
  constructor
  · norm_num +decide [calculate_first_response_times, scanGroups, scanFirst, uniqueCids,
      groupRows, keepForScan, exC4first, pyNorm, round2, mkSenderLabel, containsBot,
      keywordFilter, sortByLatencyDesc]
  · norm_num +decide [calculate_subsequent_response_times, scanGroups, scanSubsequent,
      uniqueCids, groupRows, keepForScan, exC4sub, pyNorm, round2, mkSenderLabel, containsBot,
      keywordFilter, sortByLatencyDesc]

lemma scanFirst_bot (cid : String) :
    ∀ (g : List Row) (anchor : Option ℚ) (recorded : Bool) (sn : Option String)
      (recs : List RTRecord) (sn' : Option String),
      scanFirst cid g anchor recorded sn = .ok (recs, sn') →
      ∀ x ∈ recs, containsBot x.sender = true
  | [], _, _, sn, recs, sn', h => by
    simp only [scanFirst, Except.ok.injEq, Prod.mk.injEq] at h
    rcases h with ⟨h1, _⟩
    subst h1
    intro x hx
    exact absurd hx (List.not_mem_nil x)
  | r :: rest, anchor, recorded, sn, recs, sn', h => by
    rw [scanFirst] at h
    split_ifs at h with h1 h2 h3 h4 h5 h6
    all_goals try exact scanFirst_bot cid rest _ _ _ recs sn' h
    all_goals try exact Except.noConfusion h
    simp only [Except.ok.injEq, Prod.mk.injEq] at h
    rcases h with ⟨hrec, _⟩
    subst hrec
    intro x hx
    rw [List.mem_singleton] at hx
    subst hx
    exact ‹containsBot (mkSenderLabel r) = true›

lemma scanSubsequent_bot (cid : String) :
    ∀ (g : List Row) (anchor : Option ℚ) (recorded : Bool) (sn : Option String)
      (recs : List RTRecord) (sn' : Option String),
      scanSubsequent cid g anchor recorded sn = .ok (recs, sn') →
      ∀ x ∈ recs, containsBot x.sender = true
  | [], _, _, sn, recs, sn', h => by
    simp only [scanSubsequent, Except.ok.injEq, Prod.mk.injEq] at h
    rcases h with ⟨h1, _⟩
    subst h1
    intro x hx
    exact absurd hx (List.not_mem_nil x)
  | r :: rest, anchor, recorded, sn, recs, sn', h => by
    rw [scanSubsequent] at h
    split_ifs at h with h1 h2 h3 h4 h5 h6 h7
    all_goals try exact scanSubsequent_bot cid rest _ _ _ recs sn' h
    all_goals try exact Except.noConfusion h
    cases hm : scanSubsequent cid rest none recorded (some (mkSenderLabel r)) with
    | error e =>
      rw [hm] at h
      exact Except.noConfusion h
    | ok p =>
      obtain ⟨recs0, sn0⟩ := p
      rw [hm] at h
      simp only [Except.ok.injEq, Prod.mk.injEq] at h
      rcases h with ⟨hrec, _⟩
      subst hrec
      intro x hx
      rcases List.mem_cons.mp hx with he | hmem
      · subst he
        exact ‹containsBot (mkSenderLabel r) = true›
      · exact scanSubsequent_bot cid rest _ _ _ recs0 sn0 hm x hmem

lemma scanGroups_bot
    (scan : String → List Row → Option ℚ → Bool → Option String →
      Except String (List RTRecord × Option String))
    (hscan : ∀ cid g anchor recorded sn recs sn',
      scan cid g anchor recorded sn = .ok (recs, sn') →
      ∀ x ∈ recs, containsBot x.sender = true)
    (df : List Row) :
    ∀ (cs : List String) (sn : Option String) (recs : List RTRecord),
      scanGroups scan df cs sn = .ok recs → ∀ x ∈ recs, containsBot x.sender = true
  | [], sn, recs, h => by
    simp only [scanGroups, Except.ok.injEq] at h
    subst h
    intro x hx
    exact absurd hx (List.not_mem_nil x)
  | c :: cs, sn, recs, h => by
    rw [scanGroups] at h
    cases hg : scan c ((groupRows df c).filter keepForScan) none false sn with
    | error e =>
      simp only [hg] at h
      exact Except.noConfusion h
    | ok p =>
      obtain ⟨recs0, sn0⟩ := p
      simp only [hg] at h
      cases hr : scanGroups scan df cs sn0 with
      | error e =>
        simp only [hr] at h
        exact Except.noConfusion h
      | ok recs1 =>
        simp only [hr, Except.ok.injEq] at h
        subst h
        intro x hx
        rcases List.mem_append.mp hx with hx1 | hx2
        · exact hscan c _ none false sn recs0 sn0 hg x hx1
        · exact scanGroups_bot scan hscan df cs sn0 recs1 hr x hx2

lemma mem_of_mem_keywordFilter {keywords : List String} {recs : List RTRecord} {x : RTRecord}
    (h : x ∈ keywordFilter keywords recs) : x ∈ recs := by
  unfold keywordFilter at h
  split_ifs at h
  · exact h
  · exact (List.mem_filter.mp h).1

lemma mem_of_mem_sortByLatencyDesc {recs : List RTRecord} {x : RTRecord}
    (h : x ∈ sortByLatencyDesc recs) : x ∈ recs := by
  unfold sortByLatencyDesc at h
  exact (List.mem_insertionSort _).mp h

/-- Claim C9: every record either latency table emits has a `Sender` label
containing "bot" case-insensitively — bot-only filtering is enforced at
emission time, before any keyword filtering. -/
theorem C9_theorem (df : List Row) (keywords : List String) :
    (∀ recs, calculate_first_response_times df keywords = .ok recs →
      ∀ x ∈ recs, containsBot x.sender = true)
    ∧ (∀ recs, calculate_subsequent_response_times df keywords = .ok recs →
      ∀ x ∈ recs, containsBot x.sender = true) := by
  constructor
  · intro recs h x hx
    rw [calculate_first_response_times] at h
    cases hg : scanGroups scanFirst df (uniqueCids df) none with
    | error e =>
      simp only [hg] at h
      exact Except.noConfusion h
    | ok recs0 =>
      simp only [hg, Except.ok.injEq] at h
      subst h
      exact scanGroups_bot scanFirst (scanFirst_bot) df (uniqueCids df) none recs0 hg x
        (mem_of_mem_keywordFilter (mem_of_mem_sortByLatencyDesc hx))
  · intro recs h x hx
    rw [calculate_subsequent_response_times] at h
    cases hg : scanGroups scanSubsequent df (uniqueCids df) none with
    | error e =>
      simp only [hg] at h
      exact Except.noConfusion h
    | ok recs0 =>
      simp only [hg, Except.ok.injEq] at h
      subst h
      exact scanGroups_bot scanSubsequent (scanSubsequent_bot) df (uniqueCids df) none recs0 hg x
        (mem_of_mem_keywordFilter (mem_of_mem_sortByLatencyDesc hx))

/-- Two-row conversation used by several witnesses: consumer at `t = 0`,
bot reply at `t = 5`. -/
def exC9df : List Row :=
  [⟨"c1", 0, "Consumer", "Normal Message", "sk", "hi", "m1", none, "Cust"⟩,
   ⟨"c1", 5, "Bot", "Normal Message", "sk", "yo", "m2", none, "Cust"⟩]

/-- The record the first-response table emits for `exC9df`. -/
def recC9 : RTRecord := ⟨"c1", "BOT_sk", 5, "m2", "sk", 5⟩

/-- Witness for C9: on `exC9df` the first-response table is `[recC9]`, whose
sender label contains "bot". -/
theorem C9_witness :
    calculate_first_response_times exC9df [] = .ok [recC9]
    ∧ containsBot recC9.sender = true := by
  have hok : calculate_first_response_times exC9df [] = .ok [recC9] := by
    norm_num +decide [calculate_first_response_times, scanGroups, scanFirst, uniqueCids,
      groupRows, keepForScan, exC9df, pyNorm, round2, mkSenderLabel, containsBot,
      keywordFilter, sortByLatencyDesc, List.insertionSort, List.orderedInsert, recC9]
  exact ⟨hok, (C9_theorem exC9df []).1 [recC9] hok recC9 (List.mem_singleton.mpr rfl)⟩

/-- The subsequent-response variant exactly as §4.3 of the spec words it: the
first qualifying response is consumed silently *without resetting the anchor*;
every later qualifying response computes its latency against that same anchor,
emits a record only for a bot label, and then clears the anchor.  This
definition follows the spec's words (not the code) so the code's behaviour can
be compared against it. -/
def specSubsequentScan (cid : String) : List Row → Option ℚ → Bool → List RTRecord
  | [], _, _ => []
  | r :: rest, anchor, recorded =>
    if pyNorm r.sentBy = "consumer" ∧ anchor = none then
      specSubsequentScan cid rest (some r.sentTime) recorded
    else if pyNorm r.messageType = "transfer" ∧ anchor ≠ none then
      specSubsequentScan cid rest (some r.sentTime) recorded
    else if pyNorm r.sentBy = "system" ∧ pyNorm r.messageType = "private message" ∧ anchor ≠ none then
      specSubsequentScan cid rest (some r.sentTime) recorded
    else if (pyNorm r.sentBy = "bot" ∨ pyNorm r.sentBy = "agent" ∨ pyNorm r.sentBy = "system")
        ∧ anchor ≠ none then
      if recorded = false then
        specSubsequentScan cid rest anchor true
      else if containsBot (mkSenderLabel r) then
        ⟨cid, mkSenderLabel r, round2 (r.sentTime - anchor.getD 0), r.messageId,
          pyNorm r.skill, r.sentTime⟩ :: specSubsequentScan cid rest none recorded
      else
        specSubsequentScan cid rest anchor recorded
    else
      specSubsequentScan cid rest anchor recorded

/-- The spec-worded subsequent-response table (per conversation). -/
def spec_subsequent_variant (df : List Row) : List RTRecord :=
  (uniqueCids df).flatMap
    (fun c => specSubsequentScan c ((groupRows df c).filter keepForScan) none false)

/-- Consumer at `t = 0`, bot replies at `t = 5` and `t = 9`: under the claim's
description the second bot reply measures `9` against the unreset `t = 0`
anchor and is emitted; the code clears the anchor at `t = 5`, so it emits
nothing at all. -/
def exC1df : List Row :=
  [⟨"c1", 0, "Consumer", "Normal Message", "sk", "hi", "m1", none, "Cust"⟩,
   ⟨"c1", 5, "Bot", "Normal Message", "sk", "yo", "m2", none, "Cust"⟩,
   ⟨"c1", 9, "Bot", "Normal Message", "sk", "again", "m3", none, "Cust"⟩]

/-- Counterexample to C1 as stated: on `exC1df` the code's subsequent-response
table is empty, while the spec-worded variant (unreset anchor) emits the
`t = 9` bot reply with latency 9. -/
theorem C1_counterexample :
    calculate_subsequent_response_times exC1df [] = .ok []
    ∧ spec_subsequent_variant exC1df = [⟨"c1", "BOT_sk", 9, "m3", "sk", 9⟩] := by
  constructor
  · norm_num +decide [calculate_subsequent_response_times, scanGroups, scanSubsequent,
      uniqueCids, groupRows, keepForScan, exC1df, pyNorm, round2, mkSenderLabel, containsBot,
      keywordFilter, sortByLatencyDesc]
  · norm_num +decide [spec_subsequent_variant, specSubsequentScan, uniqueCids, groupRows,
      keepForScan, exC1df, pyNorm, round2, mkSenderLabel, containsBot]

lemma responder_not_consumer {s : String}
    (h : pyNorm s = "bot" ∨ pyNorm s = "agent" ∨ pyNorm s = "system") :
    pyNorm s ≠ "consumer" := by
  rcases h with h | h | h <;> rw [h] <;> decide

/-- Claim C1 amended: in the code's subsequent-response scan the first
qualifying response sets `first_response_recorded` without emitting *and
clears the anchor* (`delays_service.py:429`); each later qualifying response
measures its latency against the anchor current at that row, emits a record
only when its sender label contains "bot" and then clears the anchor, while a
non-bot qualifying response leaves the anchor in place; a consumer message
seen with no anchor establishes a fresh anchor. -/
theorem C1_theorem (cid : String) (r rc : Row) (rest : List Row) (a : ℚ) (sn : Option String)
    (s0 : String)
    (hresp : pyNorm r.sentBy = "bot" ∨ pyNorm r.sentBy = "agent" ∨ pyNorm r.sentBy = "system")
    (hmt : pyNorm r.messageType ≠ "transfer")
    (hpriv : ¬(pyNorm r.sentBy = "system" ∧ pyNorm r.messageType = "private message"))
    (hcons : pyNorm rc.sentBy = "consumer") :
    (scanSubsequent cid (r :: rest) (some a) false sn = scanSubsequent cid rest none true sn)
    ∧ (containsBot (mkSenderLabel r) = true →
        ∀ recs sn', scanSubsequent cid rest none true (some (mkSenderLabel r)) = .ok (recs, sn') →
          scanSubsequent cid (r :: rest) (some a) true (some s0)
            = .ok (⟨cid, mkSenderLabel r, round2 (r.sentTime - a), r.messageId,
                pyNorm r.skill, r.sentTime⟩ :: recs, sn'))
    ∧ (containsBot (mkSenderLabel r) = false →
        scanSubsequent cid (r :: rest) (some a) true (some s0)
          = scanSubsequent cid rest (some a) true (some (mkSenderLabel r)))
    ∧ (scanSubsequent cid (rc :: rest) none false sn
        = scanSubsequent cid rest (some rc.sentTime) false sn) := by
  have hc1 : ¬(pyNorm r.sentBy = "consumer" ∧ (some a : Option ℚ) = none) :=
    fun hc => Option.noConfusion hc.2
  have hc2 : ¬(pyNorm r.messageType = "transfer" ∧ (some a : Option ℚ) ≠ none) :=
    fun hc => hmt hc.1
  have hc3 : ¬(pyNorm r.sentBy = "system" ∧ pyNorm r.messageType = "private message"
      ∧ (some a : Option ℚ) ≠ none) := fun hc => hpriv ⟨hc.1, hc.2.1⟩
  have hc4 : (pyNorm r.sentBy = "bot" ∨ pyNorm r.sentBy = "agent" ∨ pyNorm r.sentBy = "system")
      ∧ (some a : Option ℚ) ≠ none := ⟨hresp, fun hc => Option.noConfusion hc⟩
  refine ⟨?_, fun hbot recs sn' hok => ?_, fun hnb => ?_, ?_⟩
  · rw [scanSubsequent, if_neg hc1, if_neg hc2, if_neg hc3, if_pos hc4, if_pos rfl]
  · rw [scanSubsequent, if_neg hc1, if_neg hc2, if_neg hc3, if_pos hc4,
      if_neg (fun hc : (true = false) => Bool.noConfusion hc),
      if_neg (fun hc : _ ∧ (some s0 : Option String) = none => Option.noConfusion hc.2),
      if_pos hbot, hok]
    rfl
  · rw [scanSubsequent, if_neg hc1, if_neg hc2, if_neg hc3, if_pos hc4,
      if_neg (fun hc : (true = false) => Bool.noConfusion hc),
      if_neg (fun hc : _ ∧ (some s0 : Option String) = none => Option.noConfusion hc.2),
      if_neg (fun hc => by rw [hnb] at hc; exact Bool.noConfusion hc)]
  · rw [scanSubsequent, if_pos ⟨hcons, rfl⟩]

/-- A concrete bot reply row for the C1 witness. -/
def exBotRow : Row := ⟨"c1", 5, "Bot", "Normal Message", "sk", "yo", "m2", none, "Cust"⟩

/-- A concrete consumer row for the C1 witness. -/
def exConsRow : Row := ⟨"c1", 0, "Consumer", "Normal Message", "sk", "hi", "m1", none, "Cust"⟩

/-- Witness for C1 at a concrete bot reply: the first qualifying response is
consumed silently and the anchor is cleared. -/
theorem C1_witness :
    ((pyNorm exBotRow.sentBy = "bot" ∨ pyNorm exBotRow.sentBy = "agent"
        ∨ pyNorm exBotRow.sentBy = "system")
      ∧ pyNorm exBotRow.messageType ≠ "transfer"
      ∧ ¬(pyNorm exBotRow.sentBy = "system" ∧ pyNorm exBotRow.messageType = "private message")
      ∧ pyNorm exConsRow.sentBy = "consumer")
    ∧ scanSubsequent "c1" [exBotRow] (some 0) false none
        = scanSubsequent "c1" [] none true none := by
  refine ⟨⟨by decide, by decide, by decide, by decide⟩, ?_⟩
  have h := C1_theorem "c1" exBotRow exConsRow [] 0 none "X"
    (by decide) (by decide) (by decide) (by decide)
  exact h.1

/-- The qualifying responses of the first-response scan, with the anchor each
one would be measured against: every bot/agent/system row reached while the
anchor is set, before any record has been recorded.  Mirrors the anchor rules
of `calculate_first_response_times` but keeps *all* qualifying responses, so
the spec's "earliest qualifying response" can be talked about. -/
def qualifyingFirst : List Row → Option ℚ → List (Row × ℚ)
  | [], _ => []
  | r :: rest, anchor =>
    if pyNorm r.sentBy = "consumer" ∧ anchor = none then
      qualifyingFirst rest (some r.sentTime)
    else if pyNorm r.messageType = "transfer" ∧ anchor ≠ none then
      qualifyingFirst rest (some r.sentTime)
    else if pyNorm r.sentBy = "system" ∧ pyNorm r.messageType = "private message" ∧ anchor ≠ none then
      qualifyingFirst rest (some r.sentTime)
    else if (pyNorm r.sentBy = "bot" ∨ pyNorm r.sentBy = "agent" ∨ pyNorm r.sentBy = "system")
        ∧ anchor ≠ none then
      (r, anchor.getD 0) :: qualifyingFirst rest anchor
    else qualifyingFirst rest anchor

/-- The record the first-response scan would emit for qualifying response `p`. -/
def mkFirstRecord (cid : String) (p : Row × ℚ) : RTRecord :=
  ⟨cid, mkSenderLabel p.1, round2 (p.1.sentTime - p.2), p.1.messageId,
    pyNorm p.1.skill, p.1.sentTime⟩

/-- Does a qualifying response carry a bot-containing sender label? -/
def isBotQualifying (p : Row × ℚ) : Bool := containsBot (mkSenderLabel p.1)

/-- The earliest qualifying response whose sender label contains "bot". -/
def firstBotQualifying (g : List Row) : Option (Row × ℚ) :=
  (qualifyingFirst g none).find? isBotQualifying

lemma scanFirst_spec (cid : String) :
    ∀ (g : List Row) (anchor : Option ℚ) (sn : Option String)
      (recs : List RTRecord) (sn' : Option String),
      scanFirst cid g anchor false sn = .ok (recs, sn') →
      ((qualifyingFirst g anchor).find? isBotQualifying = none ∧ recs = [])
      ∨ (∃ p, (qualifyingFirst g anchor).find? isBotQualifying = some p
          ∧ recs = [mkFirstRecord cid p])
  | [], anchor, sn, recs, sn', h => by
    simp only [scanFirst, Except.ok.injEq, Prod.mk.injEq] at h
    rcases h with ⟨h1, _⟩
    subst h1
    exact Or.inl ⟨rfl, rfl⟩
  | r :: rest, anchor, sn, recs, sn', h => by
    by_cases b1 : pyNorm r.sentBy = "consumer" ∧ anchor = none
    · rw [scanFirst, if_pos b1] at h
      rw [qualifyingFirst, if_pos b1]
      exact scanFirst_spec cid rest _ _ recs sn' h
    · by_cases b2 : pyNorm r.messageType = "transfer" ∧ anchor ≠ none
      · rw [scanFirst, if_neg b1, if_pos b2] at h
        rw [qualifyingFirst, if_neg b1, if_pos b2]
        exact scanFirst_spec cid rest _ _ recs sn' h
      · by_cases b3 : pyNorm r.sentBy = "system" ∧ pyNorm r.messageType = "private message"
            ∧ anchor ≠ none
        · rw [scanFirst, if_neg b1, if_neg b2, if_pos b3] at h
          rw [qualifyingFirst, if_neg b1, if_neg b2, if_pos b3]
          exact scanFirst_spec cid rest _ _ recs sn' h
        · by_cases b4 : (pyNorm r.sentBy = "bot" ∨ pyNorm r.sentBy = "agent"
              ∨ pyNorm r.sentBy = "system") ∧ anchor ≠ none
          · rw [scanFirst, if_neg b1, if_neg b2, if_neg b3,
              if_pos (show _ ∧ _ ∧ (false = false) from ⟨b4.1, b4.2, rfl⟩)] at h
            rw [qualifyingFirst, if_neg b1, if_neg b2, if_neg b3, if_pos b4]
            by_cases hb : containsBot (mkSenderLabel r) = true
            · by_cases herr : round2 (r.sentTime - anchor.getD 0) < 0 ∧ sn = none
              · rw [if_pos herr] at h
                exact Except.noConfusion h
              · rw [if_neg herr, if_pos hb] at h
                simp only [Except.ok.injEq, Prod.mk.injEq] at h
                rcases h with ⟨h1, _⟩
                subst h1
                exact Or.inr ⟨(r, anchor.getD 0), List.find?_cons_of_pos _ hb, rfl⟩
            · by_cases herr : round2 (r.sentTime - anchor.getD 0) < 0 ∧ sn = none
              · rw [if_pos herr] at h
                exact Except.noConfusion h
              · rw [if_neg herr, if_neg hb] at h
                rw [List.find?_cons_of_neg (qualifyingFirst rest anchor)
                  (show ¬ isBotQualifying (r, anchor.getD 0) = true from hb)]
                exact scanFirst_spec cid rest _ _ recs sn' h
          · rw [scanFirst, if_neg b1, if_neg b2, if_neg b3,
              if_neg (fun hc => b4 ⟨hc.1, hc.2.1⟩)] at h
            rw [qualifyingFirst, if_neg b1, if_neg b2, if_neg b3, if_neg b4]
            exact scanFirst_spec cid rest _ _ recs sn' h

lemma uniqueCids_nodup : ∀ df : List Row, (uniqueCids df).Nodup
  | [] => List.nodup_nil
  | r :: rest => by
    rw [uniqueCids]
    refine List.nodup_cons.mpr ⟨?_, (uniqueCids_nodup rest).filter _⟩
    intro hmem
    have h2 := (List.mem_filter.mp hmem).2
    simp at h2

lemma keywordFilter_sublist (keywords : List String) (recs : List RTRecord) :
    List.Sublist (keywordFilter keywords recs) recs := by
  unfold keywordFilter
  split_ifs
  · exact List.Sublist.refl recs
  · exact List.filter_sublist recs

lemma scanGroupsFirst_char (df : List Row) :
    ∀ (cs : List String) (sn : Option String) (recs : List RTRecord),
      scanGroups scanFirst df cs sn = .ok recs →
      (∀ x ∈ recs, x.conversationId ∈ cs
        ∧ ∃ p, firstBotQualifying ((groupRows df x.conversationId).filter keepForScan) = some p
            ∧ x = mkFirstRecord x.conversationId p)
      ∧ (cs.Nodup → ∀ c, recs.countP (fun x => x.conversationId == c) ≤ 1)
  | [], sn, recs, h => by
    simp only [scanGroups, Except.ok.injEq] at h
    subst h
    exact ⟨fun x hx => absurd hx (List.not_mem_nil x), fun _ c => by simp⟩
  | c :: cs, sn, recs, h => by
    rw [scanGroups] at h
    cases hg : scanFirst c ((groupRows df c).filter keepForScan) none false sn with
    | error e =>
      simp only [hg] at h
      exact Except.noConfusion h
    | ok p =>
      obtain ⟨recs0, sn0⟩ := p
      simp only [hg] at h
      cases hr : scanGroups scanFirst df cs sn0 with
      | error e =>
        simp only [hr] at h
        exact Except.noConfusion h
      | ok recs1 =>
        simp only [hr, Except.ok.injEq] at h
        subst h
        have ih := scanGroupsFirst_char df cs sn0 recs1 hr
        have hgchar := scanFirst_spec c _ none sn recs0 sn0 hg
        constructor
        · intro x hx
          rcases List.mem_append.mp hx with hx0 | hx1
          · rcases hgchar with ⟨_, h0⟩ | ⟨p, hfind, h0⟩
            · subst h0; exact absurd hx0 (List.not_mem_nil x)
            · subst h0
              rw [List.mem_singleton] at hx0
              subst hx0
              exact ⟨List.mem_cons_self _ _, p, hfind, rfl⟩
          · rcases (ih.1 x hx1) with ⟨hmem, hp⟩
            exact ⟨List.mem_cons_of_mem _ hmem, hp⟩
        · intro hnd c'
          have hnd1 := (List.nodup_cons.mp hnd).2
          have hc1 : c ∉ cs := (List.nodup_cons.mp hnd).1
          rw [List.countP_append]
          have hr1le : recs1.countP (fun x => x.conversationId == c') ≤ 1 := ih.2 hnd1 c'
          have hr0 : recs0.countP (fun x => x.conversationId == c') ≤ 1 := by
            rcases hgchar with ⟨_, h0⟩ | ⟨p, _, h0⟩ <;> subst h0 <;> simp [List.countP_cons]
            split_ifs <;> simp
          by_cases hcc : c' = c
          · subst hcc
            have hz : recs1.countP (fun x => x.conversationId == c') = 0 := by
              rw [List.countP_eq_zero]
              intro x hx
              have hmem := (ih.1 x hx).1
              simp only [beq_iff_eq]
              intro he
              exact hc1 (he ▸ hmem)
            omega
          · have hz : recs0.countP (fun x => x.conversationId == c') = 0 := by
              rw [List.countP_eq_zero]
              intro x hx
              rcases hgchar with ⟨_, h0⟩ | ⟨p, _, h0⟩ <;> subst h0
              · exact absurd hx (List.not_mem_nil x)
              · rw [List.mem_singleton] at hx
                subst hx
                simp only [beq_iff_eq]
                intro he
                exact hcc (by rw [← he]; rfl)
            omega

/-- Claim C2 amended: the first-response table holds at most one record per
conversation, and that record is the earliest qualifying response whose
sender label contains "bot" — qualifying responses with a non-bot label
(agent or system) are passed over without emitting or stopping the scan. -/
theorem C2_theorem (df : List Row) (keywords : List String) (recs : List RTRecord)
    (h : calculate_first_response_times df keywords = .ok recs) :
    (∀ c, recs.countP (fun x => x.conversationId == c) ≤ 1)
    ∧ ∀ x ∈ recs,
        ∃ p, firstBotQualifying ((groupRows df x.conversationId).filter keepForScan) = some p
          ∧ x = mkFirstRecord x.conversationId p ∧ isBotQualifying p = true := by
  rw [calculate_first_response_times] at h
  cases hg : scanGroups scanFirst df (uniqueCids df) none with
  | error e =>
    simp only [hg] at h
    exact Except.noConfusion h
  | ok recs0 =>
    simp only [hg, Except.ok.injEq] at h
    subst h
    have hchar := scanGroupsFirst_char df (uniqueCids df) none recs0 hg
    constructor
    · intro c
      have hperm : (sortByLatencyDesc (keywordFilter keywords recs0)).countP
          (fun x => x.conversationId == c)
          = (keywordFilter keywords recs0).countP (fun x => x.conversationId == c) :=
        (List.perm_insertionSort _ _).countP_eq _
      rw [hperm]
      exact le_trans ((keywordFilter_sublist keywords recs0).countP_le _)
        (hchar.2 (uniqueCids_nodup df) c)
    · intro x hx
      have hx0 : x ∈ recs0 :=
        mem_of_mem_keywordFilter (mem_of_mem_sortByLatencyDesc hx)
      obtain ⟨_, p, hfind, hxp⟩ := hchar.1 x hx0
      exact ⟨p, hfind, hxp, List.find?_some hfind⟩

/-- Consumer at `t = 0`, agent reply at `t = 5`, bot reply at `t = 10`: the
earliest qualifying response is the agent's, but the emitted record is the
bot's. -/
def exC2df : List Row :=
  [⟨"c1", 0, "Consumer", "Normal Message", "sk", "hi", "m1", none, "Cust"⟩,
   ⟨"c1", 5, "Agent", "Normal Message", "sk", "hello", "m2", some "Alice", "Cust"⟩,
   ⟨"c1", 10, "Bot", "Normal Message", "sk", "yo", "m3", none, "Cust"⟩]

/-- The agent reply row of `exC2df`. -/
def exC2AgentRow : Row := ⟨"c1", 5, "Agent", "Normal Message", "sk", "hello", "m2", some "Alice", "Cust"⟩

/-- Counterexample to C2 as stated: on `exC2df` the single first-response
record is the bot reply at `t = 10` (latency 10), while the earliest
qualifying response (bot, agent, or system with the anchor set) is the agent
reply at `t = 5` with label "Alice" — the record does not correspond to it. -/
theorem C2_counterexample :
    calculate_first_response_times exC2df [] = .ok [⟨"c1", "BOT_sk", 10, "m3", "sk", 10⟩]
    ∧ (qualifyingFirst ((groupRows exC2df "c1").filter keepForScan) none).head?
        = some (exC2AgentRow, 0)
    ∧ mkSenderLabel exC2AgentRow = "Alice"
    ∧ (mkFirstRecord "c1" (exC2AgentRow, 0)).sentTime ≠ (10 : ℚ) := by
  refine ⟨?_, ?_, by decide, ?_⟩
  · norm_num +decide [calculate_first_response_times, scanGroups, scanFirst, uniqueCids,
      groupRows, keepForScan, exC2df, pyNorm, round2, mkSenderLabel, containsBot,
      keywordFilter, sortByLatencyDesc, List.insertionSort, List.orderedInsert]
  · norm_num +decide [qualifyingFirst, groupRows, keepForScan, exC2df, exC2AgentRow, pyNorm]
  · norm_num [mkFirstRecord, exC2AgentRow]

/-- Witness for C2 on `exC9df`: one record, and it is the earliest
bot-labelled qualifying response. -/
theorem C2_witness :
    calculate_first_response_times exC9df [] = .ok [recC9]
    ∧ [recC9].countP (fun x => x.conversationId == "c1") ≤ 1
    ∧ firstBotQualifying ((groupRows exC9df "c1").filter keepForScan)
        = some (⟨"c1", 5, "Bot", "Normal Message", "sk", "yo", "m2", none, "Cust"⟩, 0) := by
  have hok : calculate_first_response_times exC9df [] = .ok [recC9] := by
    norm_num +decide [calculate_first_response_times, scanGroups, scanFirst, uniqueCids,
      groupRows, keepForScan, exC9df, pyNorm, round2, mkSenderLabel, containsBot,
      keywordFilter, sortByLatencyDesc, List.insertionSort, List.orderedInsert, recC9]
  refine ⟨hok, (C2_theorem exC9df [] [recC9] hok).1 "c1", ?_⟩
  norm_num +decide [firstBotQualifying, qualifyingFirst, groupRows, keepForScan, exC9df,
    pyNorm, isBotQualifying, mkSenderLabel, containsBot]

/-! ## Skill matching (`get_repetitions`, `calculate_handling_percentage`,
and the Segmenter) -/

/-- Skill matching of the Repetition Detector (`analysis_service.py:64-68`:
`Skill.str.contains('|'.join(skill_filters), case=False, na=False)`): some
configured term occurs, case-insensitively, as a substring of the observed
skill.  One-directional. -/
def skillMatchesPattern (filters : List String) (skill : String) : Bool :=
  filters.any (fun t => containsCI skill t)

/-- Conversation-level skill check of the Handling-ratio calculator
(`calculate_handling_percentage`, `delays_service.py:277-287`:
`col_values.str.contains(target_skill_lower, na=False).any()` over the
lower-cased skill column).  Also one-directional. -/
def handlingConvHasSkill (filters : List String) (g : List Row) : Bool :=
  filters.any (fun t => g.any (fun r => containsCI r.skill t))

/-- Skill matching of the Segmenter (`process_conversations`,
`delays_service.py:182-184`, and `segment_conversation`, 126-131):
`target in skill or skill in target`, lower-cased — symmetric. -/
def segSkillMatch (targets : List String) (skill : String) : Bool :=
  targets.any (fun t => containsCI skill t || containsCI t skill)

/-- The matching rule as §3 of the spec words it: "a configured filter term
matches if it is a substring of the observed skill, or the observed skill is
a substring of the filter term", case-insensitively.  Follows the spec's
words, for comparison with the code's matchers. -/
def specSkillMatches (filters : List String) (skill : String) : Bool :=
  filters.any (fun t => containsCI skill t || containsCI t skill)

/-- A bot row with observed skill "bot" for the C3 counterexample. -/
def exC3Row : Row := ⟨"c1", 0, "Bot", "Normal Message", "bot", "txt", "m1", none, "Cust"⟩

/-- Counterexample to C3 as stated: with filter term "bot_x" and observed
skill "bot" (a proper substring of the term), the spec's either-direction rule
matches but both the Repetition Detector's and the Handling-ratio
calculator's matchers do not. -/
theorem C3_counterexample :
    skillMatchesPattern ["bot_x"] "bot" = false
    ∧ handlingConvHasSkill ["bot_x"] [exC3Row] = false
    ∧ specSkillMatches ["bot_x"] "bot" = true := by
  refine ⟨by decide, by decide, by decide⟩

/-- Claim C3 amended: the Repetition Detector and the Handling-ratio
calculator share the same one-directional, case-insensitive rule (a term
matches only if it is a substring of the observed skill); that rule implies
the spec's either-direction rule but not conversely, and the either-direction
rule is implemented only by the Segmenter. -/
theorem C3_theorem (filters : List String) (skill : String) (g : List Row) :
    handlingConvHasSkill filters g = g.any (fun r => skillMatchesPattern filters r.skill)
    ∧ (skillMatchesPattern filters skill = true → specSkillMatches filters skill = true)
    ∧ segSkillMatch filters skill = specSkillMatches filters skill := by
  refine ⟨?_, ?_, rfl⟩
  · rw [Bool.eq_iff_iff]
    simp only [handlingConvHasSkill, skillMatchesPattern, List.any_eq_true]
    constructor
    · rintro ⟨t, ht, r, hr, hc⟩
      exact ⟨r, hr, t, ht, hc⟩
    · rintro ⟨r, hr, t, ht, hc⟩
      exact ⟨t, ht, r, hr, hc⟩
  · intro h
    simp only [skillMatchesPattern, specSkillMatches, List.any_eq_true, Bool.or_eq_true] at h ⊢
    obtain ⟨t, ht, hc⟩ := h
    exact ⟨t, ht, Or.inl hc⟩

/-- Witness for C3 with term "bo" and skill "bot". -/
theorem C3_witness :
    skillMatchesPattern ["bo"] "bot" = true
    ∧ specSkillMatches ["bo"] "bot" = true
    ∧ handlingConvHasSkill ["bo"] [exC3Row]
        = [exC3Row].any (fun r => skillMatchesPattern ["bo"] r.skill) := by
  have h := C3_theorem ["bo"] "bot" [exC3Row]
  exact ⟨by decide, h.2.1 (by decide), h.1⟩

/-! ## Repetition Detector statistics (`get_repetitions`,
`analysis_service.py:44-124`) -/

/-- The bot-message subsequence the Repetition Detector inspects for one
conversation (`analysis_service.py:57-75`): bot sender, normal message, and —
when a skill filter is configured — a pattern-matching skill. -/
def botMessages (filters : List String) (g : List Row) : List Row :=
  if filters.isEmpty then
    g.filter (fun r => lowerStr r.sentBy == "bot" && lowerStr r.messageType == "normal message")
  else
    g.filter (fun r => lowerStr r.sentBy == "bot" && lowerStr r.messageType == "normal message"
      && skillMatchesPattern filters r.skill)

/-- Does a conversation contribute to `chats_with_repetition`
(`analysis_service.py:77-99`): some inspected bot message text occurring at
least twice? -/
def hasRepetition (filters : List String) (g : List Row) : Bool :=
  (botMessages filters g).any
    (fun r => 2 ≤ (botMessages filters g).countP (fun s => s.text == r.text))

/-- Does a conversation count toward `total_chats`
(`analysis_service.py:102-117`): any row with a pattern-matching skill, or
every conversation when no filter is configured? -/
def countsInDenominator (filters : List String) (g : List Row) : Bool :=
  if filters.isEmpty then true
  else g.any (fun r => skillMatchesPattern filters r.skill)

/-- The statistics of `get_repetitions` (`analysis_service.py:101-124`):
`(percentage, chats_with_reps, total_chats)`. -/
def get_repetitions_stats (filters : List String) (df : List Row) : ℚ × ℕ × ℕ :=
  let convs := uniqueCids df
  let numer := (convs.filter (fun c => hasRepetition filters (groupRows df c))).length
  let denom := (convs.filter (fun c => countsInDenominator filters (groupRows df c))).length
  (if 0 < denom then (numer : ℚ) / (denom : ℚ) * 100 else 0, numer, denom)

lemma hasRepetition_implies_denominator (filters : List String) (g : List Row)
    (h : hasRepetition filters g = true) : countsInDenominator filters g = true := by
  unfold countsInDenominator
  by_cases he : filters.isEmpty
  · simp [he]
  · rw [if_neg he]
    unfold hasRepetition botMessages at h
    rw [if_neg he] at h
    rw [List.any_eq_true] at h
    obtain ⟨r, hr, _⟩ := h
    have hm := List.mem_filter.mp hr
    rw [List.any_eq_true]
    refine ⟨r, hm.1, ?_⟩
    have hb := hm.2
    simp only [Bool.and_eq_true] at hb
    exact hb.2

lemma repetition_numer_le_denom (filters : List String) (df : List Row) :
    (get_repetitions_stats filters df).2.1 ≤ (get_repetitions_stats filters df).2.2 := by
  unfold get_repetitions_stats
  simp only
  rw [← List.countP_eq_length_filter, ← List.countP_eq_length_filter]
  exact List.countP_mono_left
    (fun c _ hc => hasRepetition_implies_denominator filters (groupRows df c) hc)

/-- Claim C5 amended: the repetition percentage always lies in `[0, 100]`, and
it is `0` exactly when the *numerator* (conversations with a repetition) is
`0`; since the numerator never exceeds the denominator this covers the
denominator-zero case, but the percentage is also `0` for a non-zero
denominator with no repetitions. -/
theorem C5_theorem (filters : List String) (df : List Row) :
    (0 ≤ (get_repetitions_stats filters df).1 ∧ (get_repetitions_stats filters df).1 ≤ 100)
    ∧ ((get_repetitions_stats filters df).1 = 0 ↔ (get_repetitions_stats filters df).2.1 = 0)
    ∧ (get_repetitions_stats filters df).2.1 ≤ (get_repetitions_stats filters df).2.2 := by
  have hle := repetition_numer_le_denom filters df
  unfold get_repetitions_stats at hle ⊢
  simp only at hle ⊢
  set numer := ((uniqueCids df).filter
    (fun c => hasRepetition filters (groupRows df c))).length with hn
  set denom := ((uniqueCids df).filter
    (fun c => countsInDenominator filters (groupRows df c))).length with hd
  by_cases hpos : 0 < denom
  · rw [if_pos hpos]
    have hd0 : (0 : ℚ) < (denom : ℚ) := by exact_mod_cast hpos
    refine ⟨⟨?_, ?_⟩, ?_, hle⟩
    · positivity
    · rw [div_mul_eq_mul_div, div_le_iff hd0]
      have : (numer : ℚ) ≤ (denom : ℚ) := by exact_mod_cast hle
      nlinarith
    · constructor
      · intro h
        rcases mul_eq_zero.mp h with h1 | h1
        · have := div_eq_zero_iff.mp h1
          rcases this with h2 | h2
          · exact_mod_cast h2
          · exact absurd h2 (ne_of_gt hd0)
        · norm_num at h1
      · intro h
        rw [h]
        simp
  · rw [if_neg hpos]
    have hdz : denom = 0 := Nat.eq_zero_of_not_pos hpos
    have hnz : numer = 0 := Nat.le_zero.mp (hdz ▸ hle)
    exact ⟨⟨le_refl 0, by norm_num⟩, by simp [hnz], hle⟩

/-- One conversation with a single pattern-matching bot message and no
repetition: denominator 1, numerator 0, percentage 0. -/
def exC5df : List Row := [⟨"c1", 0, "Bot", "Normal Message", "vip", "hello", "m1", none, "Cust"⟩]

/-- Counterexample to C5 as stated: on `exC5df` the percentage is `0` although
the denominator is `1`, not `0` — "percentage is 0 exactly when the
denominator is 0" fails in the right-to-left direction. -/
theorem C5_counterexample :
    get_repetitions_stats ["vip"] exC5df = (0, 0, 1) := by
  norm_num +decide [get_repetitions_stats, uniqueCids, groupRows, hasRepetition,
    countsInDenominator, botMessages, skillMatchesPattern, containsCI, hasSub, hasSegAux,
    startsWithSeg, lowerStr, exC5df]

/-- Witness for C5 at `exC5df` with filter `["vip"]`. -/
theorem C5_witness :
    (0 ≤ (get_repetitions_stats ["vip"] exC5df).1
      ∧ (get_repetitions_stats ["vip"] exC5df).1 ≤ 100)
    ∧ ((get_repetitions_stats ["vip"] exC5df).1 = 0
      ↔ (get_repetitions_stats ["vip"] exC5df).2.1 = 0) := by
  have h := C5_theorem ["vip"] exC5df
  exact ⟨h.1, h.2.1⟩

/-! ## Conversation Segmenter (`segment_conversation`,
`delays_service.py:107-160`, and `process_conversations`, 162-233) -/

/-- `str(x)` of a possibly-missing cell (`None` stringifies to `"None"`). -/
def optStr : Option String → String
  | some s => s
  | none => "None"

/-- `sep.join(strings)`. -/
def joinWith (sep : String) : List String → String
  | [] => ""
  | [x] => x
  | x :: rest => x ++ sep ++ joinWith sep rest

/-- First-occurrence deduplication of a string list (`pd.Series.unique`). -/
def uniqueStrings : List String → List String
  | [] => []
  | s :: rest => s :: (uniqueStrings rest).filter (fun c => decide (c ≠ s))

/-- The mutable loop state of `segment_conversation`
(`delays_service.py:109-115`): accumulated segments, the open segment, the
current agent-or-bot label, the first-label flag, the last observed skill and
the `[IDENTIFIER]` marking flag. -/
structure SegState where
  segments : List (Option String × Option String × List String)
  currentSegment : List String
  currentAgent : Option String
  firstEncountered : Bool
  lastSkill : Option String
  marking : Bool

/-- One iteration of the `segment_conversation` row loop
(`delays_service.py:117-154`): update `marking` (turned on when the first
skill matches symmetrically, turned off once a later skill name exceeds 23
characters), flush the open segment on an agent/bot label change, update
`last_skill` on agent/bot rows, then append the (possibly `[IDENTIFIER]`
tagged) line. -/
def segStep (targets : List String) (st : SegState) (r : Row) : SegState :=
  let sender := pyNorm r.sentBy
  let marking1 :=
    if st.lastSkill = none then st.marking || segSkillMatch targets r.skill
    else if st.marking ∧ 23 < r.skill.length then false
    else st.marking
  let isAgentBot := sender = "agent" ∨ sender = "bot"
  let label := if sender = "agent" then r.agentName.getD "nan" else "BOT"
  let pushed :=
    if isAgentBot then
      if st.firstEncountered = false then
        (st.segments, st.currentSegment, some label, true)
      else if some label ≠ st.currentAgent then
        if st.currentSegment.isEmpty then
          (st.segments, st.currentSegment, some label, true)
        else
          (st.segments ++ [(st.currentAgent, st.lastSkill, st.currentSegment)], [], some label, true)
      else (st.segments, st.currentSegment, st.currentAgent, st.firstEncountered)
    else (st.segments, st.currentSegment, st.currentAgent, st.firstEncountered)
  let line := (if marking1 ∧ isAgentBot then "[IDENTIFIER] " else "")
    ++ capStr sender ++ ": " ++ r.text
  { segments := pushed.1
    currentSegment := pushed.2.1 ++ [line]
    currentAgent := pushed.2.2.1
    firstEncountered := pushed.2.2.2
    lastSkill := if isAgentBot then some r.skill else st.lastSkill
    marking := marking1 }

/-- `DelaysAnalysisService.segment_conversation` (`delays_service.py:107-160`):
fold the row loop and flush the final open segment. -/
def segment_conversation (targets : List String) (rows : List Row) :
    List (Option String × Option String × List String) :=
  let st := rows.foldl (segStep targets) ⟨[], [], none, false, none, false⟩
  if st.currentSegment.isEmpty then st.segments
  else st.segments ++ [(st.currentAgent, st.lastSkill, st.currentSegment)]

/-- Does a conversation contain any symmetrically-matching skill
(`process_conversations`, `delays_service.py:178-189`)? -/
def targetConv (targets : List String) (g : List Row) : Bool :=
  g.any (fun r => segSkillMatch targets r.skill)

/-- The conversations kept by the target-skill scan. -/
def targetConvs (df : List Row) (targets : List String) : List String :=
  (uniqueCids df).filter (fun c => targetConv targets (groupRows df c))

/-- One row of the segmented table
(`delays_service.py:202-214`): conversation, customer, last skill, agent
label, and the newline-joined transcript. -/
structure SegRow where
  conversationId : String
  customerName : String
  lastSkill : Option String
  agentName : Option String
  messages : String
deriving DecidableEq

/-- The segment rows one conversation contributes (`delays_service.py:196-209`):
only `Message Type == "Normal Message"` rows (exact match) are segmented. -/
def convSegRows (df : List Row) (targets : List String) (c : String) : List SegRow :=
  let g := groupRows df c
  (segment_conversation targets (g.filter (fun r => r.messageType == "Normal Message"))).map
    (fun s => ⟨c, ((g.head?).map (fun r => r.customerName)).getD "", s.2.1, s.1,
      joinWith "\n" s.2.2⟩)

/-- The segmented table after the consumer filter (`delays_service.py:211-220`):
keep only rows whose joined transcript contains the substring `"Consumer:"`. -/
def keptSegRows (df : List Row) (targets : List String) : List SegRow :=
  ((targetConvs df targets).flatMap (fun c => convSegRows df targets c)).filter
    (fun s => hasSub s.messages "Consumer:")

/-- One row of the aggregated Segmenter output (`delays_service.py:222-231`). -/
structure MergedRow where
  conversationId : String
  customerName : String
  lastSkill : Option String
  agentNames : String
  messages : String
deriving DecidableEq

/-- `DelaysAnalysisService.process_conversations` (`delays_service.py:162-233`):
group the kept segment rows by conversation, take the first customer name and
last skill, join the uniqued agent labels, and concatenate transcripts with
the fixed separator. -/
def process_conversations (df : List Row) (targets : List String) : List MergedRow :=
  let kept := keptSegRows df targets
  (uniqueStrings (kept.map (fun s => s.conversationId))).map (fun c =>
    let rows := kept.filter (fun s => s.conversationId == c)
    { conversationId := c
      customerName := ((rows.head?).map (fun s => s.customerName)).getD ""
      lastSkill := ((rows.head?).map (fun s => s.lastSkill)).getD none
      agentNames := joinWith ", " (uniqueStrings (rows.map (fun s => optStr s.agentName)))
      messages := joinWith "\n\n--- CONVERSATION SEPARATOR ---\n\n"
        (rows.map (fun s => s.messages)) })

lemma mem_of_mem_uniqueStrings : ∀ (l : List String) (c : String), c ∈ uniqueStrings l → c ∈ l
  | [], _, h => absurd h (List.not_mem_nil _)
  | s :: rest, c, h => by
    rw [uniqueStrings] at h
    rcases List.mem_cons.mp h with he | hm
    · exact he ▸ List.mem_cons_self _ _
    · exact List.mem_cons_of_mem _
        (mem_of_mem_uniqueStrings rest c (List.mem_filter.mp hm).1)

/-- A conversation with *no* consumer rows at all, whose single bot message
text embeds the string "Consumer:". -/
def exC8df : List Row :=
  [⟨"c1", 0, "Bot", "Normal Message", "s", "see Consumer: note", "m1", none, "Cust"⟩]

/-- Counterexample to C8 as stated: `exC8df` has no consumer row (so no
segment contains a line sent by a consumer), yet the Segmenter keeps its
segment and emits an output row, because the kept-filter is the substring
test `"Consumer:" in transcript` and the bot's message text supplies the
substring. -/
theorem C8_counterexample :
    exC8df.all (fun r => !(pyNorm r.sentBy == "consumer")) = true
    ∧ process_conversations exC8df ["s"]
      = [⟨"c1", "Cust", some "s", "BOT", "[IDENTIFIER] Bot: see Consumer: note"⟩] := by
  constructor
  · decide
  · decide

/-- Claim C8 amended: a produced segment is kept exactly when its joined
transcript contains the substring "Consumer:" (which every consumer line
supplies, but which bot/agent message text can also supply), and every
Segmenter output row comes from a conversation with at least one such kept
segment — a conversation with none contributes no row. -/
theorem C8_theorem (df : List Row) (targets : List String) :
    (∀ s ∈ keptSegRows df targets, hasSub s.messages "Consumer:" = true)
    ∧ ∀ m ∈ process_conversations df targets,
        ∃ s ∈ keptSegRows df targets, s.conversationId = m.conversationId := by
  constructor
  · intro s hs
    unfold keptSegRows at hs
    exact (List.mem_filter.mp hs).2
  · intro m hm
    unfold process_conversations at hm
    rcases List.mem_map.mp hm with ⟨c, hc, hmc⟩
    have hc2 := mem_of_mem_uniqueStrings _ c hc
    rcases List.mem_map.mp hc2 with ⟨s, hs, hsc⟩
    refine ⟨s, hs, ?_⟩
    rw [hsc, ← hmc]

/-- A conversation with a consumer line and a bot line on a matching skill. -/
def exC8df2 : List Row :=
  [⟨"c1", 0, "Consumer", "Normal Message", "s", "hi", "m1", none, "Cust"⟩,
   ⟨"c1", 5, "Bot", "Normal Message", "s", "yo", "m2", none, "Cust"⟩]

/-- The single kept segment row of `exC8df2`. -/
def exC8SegRow : SegRow := ⟨"c1", "Cust", some "s", some "BOT", "Consumer: hi\n[IDENTIFIER] Bot: yo"⟩

/-- Witness for C8 on `exC8df2`: its one kept segment's transcript contains
"Consumer:". -/
theorem C8_witness :
    keptSegRows exC8df2 ["s"] = [exC8SegRow]
    ∧ hasSub exC8SegRow.messages "Consumer:" = true := by
  have hk : keptSegRows exC8df2 ["s"] = [exC8SegRow] := by decide
  exact ⟨hk, (C8_theorem exC8df2 ["s"]).1 exC8SegRow (by rw [hk]; exact List.mem_singleton.mpr rfl)⟩
